import Mathlib

/-!
Verification of the session/process lifecycle core of the
application-share gateway (`server/app_manager.py`,
`server/session_manager.py`, `server/websocket_handler.py`,
`server/live_streamer.py`).

Python dictionaries are modelled as association lists in insertion
order (`assocSet` updates in place or appends, `assocErase` deletes,
`assocFind` looks up), and Python sets of user ids as duplicate-free
lists in insertion order.  Every stateful method is embedded as a pure
function from the manager state (plus the external inputs it reads:
clock value, generated id, spawn outcome) to the new state and its
returned value; a method that raises before mutating returns the state
unchanged together with the typed error.
-/

namespace AppShare

/-- Lookup in an association list (Python `d[k]` / `d.get(k)`). -/
def assocFind {α : Type} (k : String) : List (String × α) → Option α
  | [] => none
  | (k1, v) :: rest => if k1 = k then some v else assocFind k rest

/-- Update-in-place-or-append (Python `d[k] = v`; dict keys keep insertion order). -/
def assocSet {α : Type} (k : String) (v : α) : List (String × α) → List (String × α)
  | [] => [(k, v)]
  | (k1, v1) :: rest => if k1 = k then (k, v) :: rest else (k1, v1) :: assocSet k v rest

/-- Deletion (Python `del d[k]`; removes the first, hence only, binding). -/
def assocErase {α : Type} (k : String) : List (String × α) → List (String × α)
  | [] => []
  | (k1, v1) :: rest => if k1 = k then rest else (k1, v1) :: assocErase k rest

/-- Python `set.add` on a set modelled as a duplicate-free list in insertion order. -/
def insertIfAbsent (x : String) (xs : List String) : List String :=
  if x ∈ xs then xs else xs ++ [x]

/-- Python `set.discard`. -/
def removeElem (x : String) (xs : List String) : List String :=
  xs.filter (fun y => y ≠ x)

/-! ### ApplicationManager (`server/app_manager.py`)

An OS process handle is abstracted by its pid, its current exit status
(`returncode = none` while it is still running), and its reaction to a
graceful terminate signal: `respondsToTerm` says whether it exits within
the 5-second grace period used by `stop_application`, and
`termExitCode` is the exit code it reports in that case. -/

/-- Abstract OS process handle (`asyncio` subprocess object). -/
structure Process where
  pid : Nat
  returncode : Option Int
  respondsToTerm : Bool
  termExitCode : Int
  deriving Repr, DecidableEq

/-- One entry of `ApplicationManager.running_apps` (the `app_info` dict). -/
structure AppInfo where
  name : String
  user_id : String
  process : Process
  started_at : Nat
  status : String
  stopped_at : Option Nat
  deriving Repr, DecidableEq

/-- State of `ApplicationManager`. -/
structure AppManager where
  running_apps : List (String × AppInfo)
  allowed_apps : List String
  max_concurrent : Nat
  deriving Repr, DecidableEq

/-- Typed failure of `start_application` (`ValueError` / re-raised spawn error). -/
inductive StartError
  | notAllowed
  | capacityExceeded
  | launchFailed
  deriving Repr, DecidableEq

/-- Typed failure of `stop_application` (`ValueError` / `PermissionError`). -/
inductive StopError
  | notFound
  | forbidden
  deriving Repr, DecidableEq

/-- The grace period, in seconds, that `stop_application` waits after the
terminate signal before escalating (`asyncio.wait_for(..., timeout=5.0)`). -/
def gracePeriodSeconds : Nat := 5

/-- `ApplicationManager.start_application`.  `app_id` is the generated
`secrets.token_urlsafe(16)` value, `spawned` the outcome of
`asyncio.create_subprocess_exec` (`none` means the spawn raised before a
process handle existed), `now` the clock read for `started_at`.
Returns the new state and either the stored `app_info` or the error. -/
def start_application (mgr : AppManager) (app_name user_id app_id : String)
    (spawned : Option Process) (now : Nat) :
    AppManager × Except StartError AppInfo :=
  if app_name ∉ mgr.allowed_apps then (mgr, .error .notAllowed)
  else if mgr.running_apps.length ≥ mgr.max_concurrent then (mgr, .error .capacityExceeded)
  else
    match spawned with
    | none => (mgr, .error .launchFailed)
    | some p =>
        let info : AppInfo :=
          { name := app_name, user_id := user_id, process := p,
            started_at := now, status := "running", stopped_at := none }
        ({ mgr with running_apps := assocSet app_id info mgr.running_apps }, .ok info)

/-- Record of what the success path of `stop_application` did to the
process: whether `terminate()` was sent, whether it escalated to
`kill()` after the grace period, and the process handle as the call
returns (its `returncode` is set once the process has exited). -/
structure StopTrace where
  sentTerminate : Bool
  sentKill : Bool
  finalProcess : Process
  deriving Repr, DecidableEq

/-- The signalling part of `stop_application`: if the process has not
already exited, send `terminate()`; a process that reacts within the
5-second grace period exits with its own code, otherwise `kill()` is
sent and the process exits forcefully (modelled as exit code `-9`). -/
def stopProcess (p : Process) : StopTrace :=
  match p.returncode with
  | some _ => { sentTerminate := false, sentKill := false, finalProcess := p }
  | none =>
      if p.respondsToTerm then
        { sentTerminate := true, sentKill := false,
          finalProcess := { p with returncode := some p.termExitCode } }
      else
        { sentTerminate := true, sentKill := true,
          finalProcess := { p with returncode := some (-9) } }

/-- `ApplicationManager.stop_application`.  Raises `notFound` for an
unknown id and `forbidden` when a non-null `user_id` differs from the
owner; otherwise terminates/kills as needed, waits for the exit, and
only then deletes the record. -/
def stop_application (mgr : AppManager) (app_id : String) (user_id : Option String) :
    AppManager × Except StopError StopTrace :=
  match assocFind app_id mgr.running_apps with
  | none => (mgr, .error .notFound)
  | some info =>
      match user_id with
      | some u =>
          if info.user_id ≠ u then (mgr, .error .forbidden)
          else
            ({ mgr with running_apps := assocErase app_id mgr.running_apps },
              .ok (stopProcess info.process))
      | none =>
          ({ mgr with running_apps := assocErase app_id mgr.running_apps },
            .ok (stopProcess info.process))

/-- `ApplicationManager._monitor_application`, entered at the moment
`process.wait()` returns, i.e. when the OS process has exited with
`exitCode` at time `now`.  It marks the record stopped, stamps
`stopped_at`, and the `finally` block deletes the record.  Returns the
new state and the final record as it was written before deletion
(`none` if the id was already gone). -/
def monitor_application (mgr : AppManager) (app_id : String) (exitCode : Int)
    (now : Nat) : AppManager × Option AppInfo :=
  match assocFind app_id mgr.running_apps with
  | none => (mgr, none)
  | some info =>
      let info2 : AppInfo :=
        { info with
          process := { info.process with returncode := some exitCode },
          status := "stopped", stopped_at := some now }
      ({ mgr with running_apps := assocErase app_id mgr.running_apps }, some info2)

/-- The status string `get_application_status` reports for a record:
`"stopped"` once the process has an exit code, else the stored status. -/
def viewStatus (info : AppInfo) : String :=
  if info.process.returncode.isSome then "stopped" else info.status

/-- `ApplicationManager.list_running_applications`: every table entry
passing the owner filter, as `(id, reported status)` pairs. -/
def list_running_applications (mgr : AppManager) (user_id : Option String) :
    List (String × String) :=
  (mgr.running_apps.filter (fun kv =>
      match user_id with
      | none => true
      | some u => kv.2.user_id = u)).map (fun kv => (kv.1, viewStatus kv.2))

/-- Number of table entries whose stored status is non-terminal
(`"running"`); the capacity check in the source counts the whole table. -/
def nonTerminalCount (mgr : AppManager) : Nat :=
  (mgr.running_apps.filter (fun kv => kv.2.status = "running")).length

/-! ### SessionManager (`server/session_manager.py`)

Timestamps (`time.time()` values) are modelled as naturals; the
`current_time - last_activity > timeout` comparison of the sweep is
truncated subtraction, which agrees with the source whenever the clock
does not run backwards. -/

/-- The `settings` sub-dict of a session. -/
structure SessionSettings where
  allow_guests : Bool
  max_participants : Nat
  recording_enabled : Bool
  chat_enabled : Bool
  deriving Repr, DecidableEq

/-- Defaults installed by `create_session`. -/
def defaultSettings : SessionSettings :=
  { allow_guests := true, max_participants := 10,
    recording_enabled := false, chat_enabled := true }

/-- One binding of `session["applications"]`: `added_by` and `added_at`. -/
structure AppBinding where
  added_by : String
  added_at : Nat
  deriving Repr, DecidableEq

/-- One entry of `SessionManager.sessions`.  `participants` is the
Python set, kept as a duplicate-free list in insertion order; note that
`close_session` never clears this field (it only resets the separate
`session_participants` mirror). -/
structure Session where
  sid : String
  name : String
  owner_id : String
  created_at : Nat
  last_activity : Nat
  status : String
  participants : List String
  applications : List (String × AppBinding)
  settings : SessionSettings
  closed_at : Option Nat
  deriving Repr, DecidableEq

/-- State of `SessionManager`: the session table, the user-to-session
reverse map, the session-to-participants mirror, and the timeout. -/
structure SessionManager where
  sessions : List (String × Session)
  user_sessions : List (String × String)
  session_participants : List (String × List String)
  session_timeout : Nat
  deriving Repr, DecidableEq

/-- `SessionManager.create_session`.  `session_id` is the generated
UUID, `now` the clock value.  Always succeeds: seeds participants with
the owner and points the owner's reverse-map entry at the new session
(without touching any session the owner was previously in). -/
def create_session (mgr : SessionManager) (owner_id session_id : String)
    (session_name : Option String) (now : Nat) : SessionManager × Session :=
  let s : Session :=
    { sid := session_id,
      name := session_name.getD ("Session " ++ session_id.take 8),
      owner_id := owner_id, created_at := now, last_activity := now,
      status := "active", participants := [owner_id], applications := [],
      settings := defaultSettings, closed_at := none }
  ({ mgr with
      sessions := assocSet session_id s mgr.sessions,
      user_sessions := assocSet owner_id session_id mgr.user_sessions,
      session_participants := assocSet session_id [owner_id] mgr.session_participants },
    s)

/-- `SessionManager.join_session`.  Returns `false` (state unchanged)
when the session is missing, not active, or already holds
`max_participants` members — the capacity check runs before the
membership check; otherwise adds the user (a no-op on the set if
already a member), re-points the reverse map, and touches
`last_activity`. -/
def join_session (mgr : SessionManager) (session_id user_id : String) (now : Nat) :
    Bool × SessionManager :=
  match assocFind session_id mgr.sessions with
  | none => (false, mgr)
  | some s =>
      if s.status ≠ "active" then (false, mgr)
      else if s.participants.length ≥ s.settings.max_participants then (false, mgr)
      else
        let s2 := { s with
          participants := insertIfAbsent user_id s.participants,
          last_activity := now }
        (true,
          { mgr with
            sessions := assocSet session_id s2 mgr.sessions,
            user_sessions := assocSet user_id session_id mgr.user_sessions,
            session_participants := assocSet session_id
              (insertIfAbsent user_id
                ((assocFind session_id mgr.session_participants).getD []))
              mgr.session_participants })

/-- `SessionManager.close_session`.  Marks the session closed, stamps
`closed_at`, deletes the reverse-map entry of every user recorded in
the session's `participants` field (which it does not clear), and
resets the `session_participants` mirror. -/
def close_session (mgr : SessionManager) (session_id : String) (now : Nat) :
    Bool × SessionManager :=
  match assocFind session_id mgr.sessions with
  | none => (false, mgr)
  | some s =>
      let s2 := { s with status := "closed", closed_at := some now }
      (true,
        { mgr with
          sessions := assocSet session_id s2 mgr.sessions,
          user_sessions := s.participants.foldl (fun acc u => assocErase u acc)
            mgr.user_sessions,
          session_participants := assocSet session_id [] mgr.session_participants })

/-- `SessionManager.leave_session`.  A user with no current session is a
no-op returning `false`.  Otherwise the user is removed from the
session's participants and the reverse map; if the leaver owned the
session, ownership passes to the first remaining participant
(`next(iter(...))`, here the head of the insertion-order list), or the
session is closed when none remain. -/
def leave_session (mgr : SessionManager) (user_id : String) (now : Nat) :
    Bool × SessionManager :=
  match assocFind user_id mgr.user_sessions with
  | none => (false, mgr)
  | some session_id =>
      match assocFind session_id mgr.sessions with
      | none => (false, mgr)
      | some s =>
          let parts := removeElem user_id s.participants
          let s2 := { s with participants := parts, last_activity := now }
          let mgr2 : SessionManager :=
            { mgr with
              sessions := assocSet session_id s2 mgr.sessions,
              session_participants := assocSet session_id
                (removeElem user_id
                  ((assocFind session_id mgr.session_participants).getD []))
                mgr.session_participants,
              user_sessions := assocErase user_id mgr.user_sessions }
          if s.owner_id = user_id then
            match parts with
            | [] => (true, (close_session mgr2 session_id now).2)
            | newOwner :: _ =>
                (true, { mgr2 with
                  sessions := assocSet session_id { s2 with owner_id := newOwner }
                    mgr2.sessions })
          else (true, mgr2)

/-- `SessionManager.cleanup_expired_sessions` at clock value `now`:
collects every session (of any status) whose last-activity age strictly
exceeds the timeout, then closes each in table order. -/
def cleanup_expired_sessions (mgr : SessionManager) (now : Nat) : SessionManager :=
  let expired := (mgr.sessions.filter
    (fun kv => now - kv.2.last_activity > mgr.session_timeout)).map (fun kv => kv.1)
  expired.foldl (fun m sid => (close_session m sid now).2) mgr

/-! ### LiveStreamer fan-out (`server/live_streamer.py`)

`capture_and_stream` sends each captured frame to every connected
client with `asyncio.gather(..., return_exceptions=True)`: a raising
send is collected as an exception value (isolated from the other
sends) and nothing in the loop removes the client — removal happens
only in the connection handler's `finally` when the socket itself
closes.  A client is modelled by its id, a flag saying whether every
`send` to it fails, and the log of payloads it has received. -/

/-- One connected websocket client of the live stream. -/
structure LiveClient where
  cid : String
  sendFails : Bool
  received : List String
  deriving Repr, DecidableEq

/-- State of `LiveStreamer` (the parts the streaming loop touches). -/
structure LiveStreamer where
  clients : List LiveClient
  frame_rate : Nat
  quality : Nat
  deriving Repr, DecidableEq

/-- One `client.send(message)` inside the gather: a failing send raises,
the exception is swallowed by `return_exceptions=True`, and the client's
log is unchanged; a working send appends the payload. -/
def sendFrame (payload : String) (c : LiveClient) : LiveClient :=
  if c.sendFails then c else { c with received := c.received ++ [payload] }

/-- One iteration of `capture_and_stream` with a successfully captured
frame `payload`: send to every client; the client set is not modified. -/
def streamFrame (s : LiveStreamer) (payload : String) : LiveStreamer :=
  { s with clients := s.clients.map (sendFrame payload) }

/-- Publishing a sequence of captured frames in order. -/
def streamFrames (s : LiveStreamer) (payloads : List String) : LiveStreamer :=
  payloads.foldl streamFrame s

/-! ### WebSocketHandler input forwarding (`server/websocket_handler.py`)

`handle_mouse_event` / `handle_keyboard_event` look up the client's
current room in `client_apps`; with no room the event is dropped.
Otherwise the event is injected into the first window of the
application (via the window manager) and, in addition, broadcast to
every other client subscribed to the same room.  The embedding records
both effects; the external window list is a parameter `windowsOf`. -/

/-- Routing state of `WebSocketHandler`. -/
structure WSState where
  connected_clients : List String
  app_sessions : List (String × List String)
  client_apps : List (String × String)
  deriving Repr, DecidableEq

/-- The payload of a forwarded mouse event (`type`, `x`, `y`, `button`);
keyboard events route identically with their own fields. -/
structure MouseEvent where
  etype : String
  x : Int
  y : Int
  button : Nat
  deriving Repr, DecidableEq

/-- Observable effect of one `handle_mouse_event` call: the window the
event was injected into together with the injected event (if the
application reported any window) and the list of other clients the
event was relayed to. -/
structure InputForward where
  injected : Option (String × MouseEvent)
  broadcastTo : List String
  deriving Repr, DecidableEq

/-- `WebSocketHandler.handle_mouse_event` (and, with the same routing,
`handle_keyboard_event`): drop if the client is in no room; else inject
into the room's first window and broadcast to the room's other
subscribers (`broadcast_to_app` with `exclude_client=client_id`). -/
def handle_mouse_event (ws : WSState) (client_id : String) (ev : MouseEvent)
    (windowsOf : String → List String) : InputForward :=
  match assocFind client_id ws.client_apps with
  | none => { injected := none, broadcastTo := [] }
  | some app_id =>
      { injected := (windowsOf app_id).head?.map (fun w => (w, ev)),
        broadcastTo :=
          ((assocFind app_id ws.app_sessions).getD []).filter
            (fun c => c ≠ client_id) }

/-! ### Association-list lemmas -/

theorem assocFind_eq_none_iff {α : Type} (k : String) (l : List (String × α)) :
    assocFind k l = none ↔ k ∉ l.map Prod.fst := by
  induction l with
  | nil => simp [assocFind]
  | cons hd tl ih =>
      obtain ⟨k1, v⟩ := hd
      by_cases h : k1 = k
      · subst h
        simp [assocFind]
      · simp [assocFind, h, ih, Ne.symm h]

theorem assocFind_mem {α : Type} {k : String} {v : α} {l : List (String × α)}
    (h : assocFind k l = some v) : (k, v) ∈ l := by
  induction l with
  | nil => simp [assocFind] at h
  | cons hd tl ih =>
      obtain ⟨k1, v1⟩ := hd
      by_cases hk : k1 = k
      · subst hk
        simp [assocFind] at h
        simp [h]
      · simp [assocFind, hk] at h
        simp [ih h]

theorem mem_assocFind {α : Type} {k : String} {v : α} {l : List (String × α)}
    (hn : (l.map Prod.fst).Nodup) (h : (k, v) ∈ l) : assocFind k l = some v := by
  induction l with
  | nil => simp at h
  | cons hd tl ih =>
      obtain ⟨k1, v1⟩ := hd
      simp at hn
      rcases List.mem_cons.mp h with h1 | h1
      · rw [Prod.mk.injEq] at h1
        obtain ⟨hk, hv⟩ := h1
        simp [assocFind, hk, hv]
      · by_cases hk : k1 = k
        · subst hk
          exact absurd h1 (hn.1 v)
        · simp [assocFind, hk]
          exact ih hn.2 h1

theorem assocFind_assocSet_self {α : Type} (k : String) (v : α) (l : List (String × α)) :
    assocFind k (assocSet k v l) = some v := by
  induction l with
  | nil => simp [assocSet, assocFind]
  | cons hd tl ih =>
      obtain ⟨k1, v1⟩ := hd
      by_cases h : k1 = k
      · subst h
        simp [assocSet, assocFind]
      · simp [assocSet, assocFind, h, ih]

theorem assocFind_assocSet_ne {α : Type} {k k1 : String} (v : α) (l : List (String × α))
    (h : k1 ≠ k) : assocFind k (assocSet k1 v l) = assocFind k l := by
  induction l with
  | nil => simp [assocSet, assocFind, h]
  | cons hd tl ih =>
      obtain ⟨k2, v2⟩ := hd
      by_cases h2 : k2 = k1
      · subst h2
        simp [assocSet, assocFind, h]
      · simp [assocSet, assocFind, h2, ih]

theorem assocFind_assocErase_self {α : Type} {k : String} {l : List (String × α)}
    (hn : (l.map Prod.fst).Nodup) : assocFind k (assocErase k l) = none := by
  induction l with
  | nil => simp [assocErase, assocFind]
  | cons hd tl ih =>
      obtain ⟨k1, v1⟩ := hd
      simp at hn
      by_cases h : k1 = k
      · subst h
        simpa [assocErase, assocFind_eq_none_iff] using hn.1
      · simp [assocErase, assocFind, h, ih hn.2]

theorem assocFind_assocErase_ne {α : Type} {k k1 : String} (l : List (String × α))
    (h : k1 ≠ k) : assocFind k (assocErase k1 l) = assocFind k l := by
  induction l with
  | nil => simp [assocErase, assocFind]
  | cons hd tl ih =>
      obtain ⟨k2, v2⟩ := hd
      by_cases h2 : k2 = k1
      · subst h2
        simp [assocErase, assocFind, h]
      · simp [assocErase, assocFind, h2, ih]

theorem not_mem_list_running {mgr : AppManager} {k : String}
    (h : assocFind k mgr.running_apps = none) (u : Option String) :
    k ∉ (list_running_applications mgr u).map Prod.fst := by
  have hk := (assocFind_eq_none_iff k mgr.running_apps).mp h
  intro hmem
  rw [list_running_applications, List.map_map] at hmem
  obtain ⟨kv, hkv, hfst⟩ := List.mem_map.mp hmem
  exact hk (hfst ▸ List.mem_map_of_mem Prod.fst (List.mem_of_mem_filter hkv))

/-! ### Sample states used by concrete witnesses and counterexamples -/

/-- A process that has not yet exited and reacts to `terminate()`. -/
def procRunning : Process :=
  { pid := 42, returncode := none, respondsToTerm := true, termExitCode := 0 }

/-- A stored record for one running firefox instance owned by alice. -/
def infoOneApp : AppInfo :=
  { name := "firefox", user_id := "alice", process := procRunning,
    started_at := 1, status := "running", stopped_at := none }

/-- A manager holding that one instance, well below capacity. -/
def mgrOneApp : AppManager :=
  { running_apps := [("app1", infoOneApp)],
    allowed_apps := ["firefox", "code"], max_concurrent := 10 }

/-- The same table with the concurrency limit already reached. -/
def mgrFull : AppManager :=
  { running_apps := [("app1", infoOneApp)],
    allowed_apps := ["firefox", "code"], max_concurrent := 1 }

/-! ### Claims about the ApplicationManager -/

/-- Claim C1: for an instance present in the table, `stop_application`
by its owner (or with a null requester) succeeds; the trace shows the
process has actually exited when the record is deleted (`finalProcess`
has an exit code), the record is gone from the table and from
`list_running_applications`, and for a still-running process a graceful
`terminate()` is sent first, escalating to `kill()` exactly when the
process does not exit within the 5-second grace period. -/
theorem C1_stop_terminates_and_removes (mgr : AppManager) (app_id : String)
    (requester : Option String) (info : AppInfo)
    (hn : (mgr.running_apps.map Prod.fst).Nodup)
    (hfind : assocFind app_id mgr.running_apps = some info)
    (hreq : requester = none ∨ requester = some info.user_id) :
    stop_application mgr app_id requester =
      ({ mgr with running_apps := assocErase app_id mgr.running_apps },
        .ok (stopProcess info.process)) ∧
    (stopProcess info.process).finalProcess.returncode.isSome = true ∧
    assocFind app_id (stop_application mgr app_id requester).1.running_apps = none ∧
    app_id ∉ (list_running_applications (stop_application mgr app_id requester).1 none).map
      Prod.fst ∧
    (info.process.returncode = none →
      (stopProcess info.process).sentTerminate = true ∧
      (stopProcess info.process).sentKill = !info.process.respondsToTerm) := by
  have heq : stop_application mgr app_id requester =
      ({ mgr with running_apps := assocErase app_id mgr.running_apps },
        .ok (stopProcess info.process)) := by
    rcases hreq with h | h <;> subst h <;> simp [stop_application, hfind]
  have hgone : assocFind app_id
      (stop_application mgr app_id requester).1.running_apps = none := by
    rw [heq]
    exact assocFind_assocErase_self hn
  refine ⟨heq, ?_, hgone, not_mem_list_running hgone none, ?_⟩
  · rcases hrc : info.process.returncode with _ | c
    · by_cases hterm : info.process.respondsToTerm <;> simp [stopProcess, hrc, hterm]
    · simp [stopProcess, hrc]
  · intro hrc
    by_cases hterm : info.process.respondsToTerm <;> simp [stopProcess, hrc, hterm]

/-- Witness for C1 at a concrete manager: alice stops her own instance. -/
theorem C1_witness :
    (mgrOneApp.running_apps.map Prod.fst).Nodup ∧
    stop_application mgrOneApp "app1" (some "alice") =
      ({ mgrOneApp with running_apps := assocErase "app1" mgrOneApp.running_apps },
        .ok (stopProcess infoOneApp.process)) :=
  ⟨by decide,
    (C1_stop_terminates_and_removes mgrOneApp "app1" (some "alice") infoOneApp
      (by decide) (by decide) (Or.inr rfl)).1⟩

/-- Claim C2 counterexample: an out-of-band kill makes the process exit
with code 1 (a crash), yet the monitor records status `"stopped"`, not
`"crashed"`, and records the same status as for a clean exit with code
0 — the transition does not depend on the exit code. -/
theorem C2_counterexample :
    (monitor_application mgrOneApp "app1" 1 7).2.map AppInfo.status = some "stopped" ∧
    (monitor_application mgrOneApp "app1" 1 7).2.map AppInfo.status ≠ some "crashed" ∧
    (monitor_application mgrOneApp "app1" 1 7).2.map AppInfo.status =
      (monitor_application mgrOneApp "app1" 0 7).2.map AppInfo.status := by
  decide

/-- Claim C2 (amended): when the OS process of a tracked instance exits
with any exit code, the monitor marks the final record `"stopped"`
(there is no crash/exit-code distinction), stamps `stopped_at`, and
removes the record, so the instance is absent from the table and from
`list_running_applications` when the monitor task finishes. -/
theorem C2_monitor_cleanup (mgr : AppManager) (app_id : String) (exitCode : Int)
    (now : Nat) (info : AppInfo)
    (hn : (mgr.running_apps.map Prod.fst).Nodup)
    (hfind : assocFind app_id mgr.running_apps = some info) :
    ∃ info2 : AppInfo,
      monitor_application mgr app_id exitCode now =
        ({ mgr with running_apps := assocErase app_id mgr.running_apps }, some info2) ∧
      info2.status = "stopped" ∧
      info2.stopped_at = some now ∧
      info2.process.returncode = some exitCode ∧
      assocFind app_id (monitor_application mgr app_id exitCode now).1.running_apps
        = none ∧
      app_id ∉ (list_running_applications
        (monitor_application mgr app_id exitCode now).1 none).map Prod.fst := by
  have heq : monitor_application mgr app_id exitCode now =
      ({ mgr with running_apps := assocErase app_id mgr.running_apps },
        some { info with
          process := { info.process with returncode := some exitCode },
          status := "stopped", stopped_at := some now }) := by
    simp [monitor_application, hfind]
  have hgone : assocFind app_id
      (monitor_application mgr app_id exitCode now).1.running_apps = none := by
    rw [heq]
    exact assocFind_assocErase_self hn
  exact ⟨_, heq, rfl, rfl, rfl, hgone, not_mem_list_running hgone none⟩

/-- Witness for C2 at a concrete manager: the instance whose process
exited with code 1 is marked stopped, stamped, and removed. -/
theorem C2_witness :
    ∃ info2 : AppInfo,
      monitor_application mgrOneApp "app1" 1 7 =
        ({ mgrOneApp with running_apps := assocErase "app1" mgrOneApp.running_apps },
          some info2) ∧
      info2.status = "stopped" ∧
      info2.stopped_at = some 7 ∧
      info2.process.returncode = some 1 ∧
      assocFind "app1" (monitor_application mgrOneApp "app1" 1 7).1.running_apps = none ∧
      "app1" ∉ (list_running_applications
        (monitor_application mgrOneApp "app1" 1 7).1 none).map Prod.fst :=
  C2_monitor_cleanup mgrOneApp "app1" 1 7 infoOneApp (by decide) (by decide)

/-- Claim C3: once the count of non-terminal (status `"running"`)
records reaches the configured maximum, a further start of an allowed
application fails with `capacityExceeded` and leaves the state
untouched; and any successful start requires the table to be strictly
below the maximum, so starts succeed again only after a record has been
removed from the table. -/
theorem C3_capacity_limit (mgr : AppManager) (app_name user_id app_id : String)
    (spawned : Option Process) (now : Nat)
    (hallow : app_name ∈ mgr.allowed_apps)
    (hcap : mgr.max_concurrent ≤ nonTerminalCount mgr) :
    start_application mgr app_name user_id app_id spawned now =
      (mgr, .error .capacityExceeded) ∧
    ∀ (m m2 : AppManager) (nm uid aid : String) (sp : Option Process) (t : Nat)
      (inf : AppInfo),
      start_application m nm uid aid sp t = (m2, .ok inf) →
      m.running_apps.length < m.max_concurrent := by
  constructor
  · have hlen : mgr.max_concurrent ≤ mgr.running_apps.length :=
      le_trans hcap (List.length_filter_le _ _)
    simp [start_application, hallow, hlen]
  · intro m m2 nm uid aid sp t inf hok
    by_cases h1 : nm ∈ m.allowed_apps
    · by_cases h2 : m.running_apps.length ≥ m.max_concurrent
      · simp [start_application, h1, h2] at hok
      · exact Nat.lt_of_not_le h2
    · simp [start_application, h1] at hok

/-- Witness for C3 at a concrete manager already at its limit of 1. -/
theorem C3_witness :
    mgrFull.max_concurrent ≤ nonTerminalCount mgrFull ∧
    start_application mgrFull "firefox" "bob" "app2" none 5 =
      (mgrFull, .error .capacityExceeded) :=
  ⟨by decide,
    (C3_capacity_limit mgrFull "firefox" "bob" "app2" none 5
      (by decide) (by decide)).1⟩

/-- Claim C8: a start whose spawn fails before a process handle exists
(`spawned = none`) reports `launchFailed` synchronously and returns the
manager state unchanged — no record is created for the generated id. -/
theorem C8_spawn_failure_atomic (mgr : AppManager) (app_name user_id app_id : String)
    (now : Nat)
    (hallow : app_name ∈ mgr.allowed_apps)
    (hlen : mgr.running_apps.length < mgr.max_concurrent) :
    start_application mgr app_name user_id app_id none now =
      (mgr, .error .launchFailed) := by
  simp [start_application, hallow, Nat.not_le.mpr hlen]

/-- Witness for C8 at a concrete manager below capacity. -/
theorem C8_witness :
    mgrOneApp.running_apps.length < mgrOneApp.max_concurrent ∧
    start_application mgrOneApp "firefox" "bob" "app2" none 5 =
      (mgrOneApp, .error .launchFailed) :=
  ⟨by decide,
    C8_spawn_failure_atomic mgrOneApp "firefox" "bob" "app2" 5 (by decide) (by decide)⟩

/-! ### Claims about the SessionManager -/

/-- Claim C4: when the owner of an active session leaves, the session
stays active with ownership passed to the first remaining participant
in insertion order (hence a member of the remaining participants) if
any remain, and is closed if none remain. -/
theorem C4_owner_leave (mgr : SessionManager) (user_id session_id : String)
    (s : Session) (now : Nat)
    (hu : assocFind user_id mgr.user_sessions = some session_id)
    (hs : assocFind session_id mgr.sessions = some s)
    (howner : s.owner_id = user_id)
    (hactive : s.status = "active") :
    (leave_session mgr user_id now).1 = true ∧
    ∃ s2 : Session,
      assocFind session_id (leave_session mgr user_id now).2.sessions = some s2 ∧
      (removeElem user_id s.participants = [] → s2.status = "closed") ∧
      ∀ (a : String) (l : List String),
        removeElem user_id s.participants = a :: l →
          s2.status = "active" ∧ s2.owner_id = a ∧
          s2.owner_id ∈ removeElem user_id s.participants ∧
          s2.participants = removeElem user_id s.participants := by
  rcases hp : removeElem user_id s.participants with _ | ⟨a, l⟩
  · have key : (leave_session mgr user_id now).1 = true ∧
        assocFind session_id (leave_session mgr user_id now).2.sessions =
          some { s with
                 participants := ([] : List String),
                 last_activity := now,
                 status := "closed",
                 closed_at := some now } := by
      constructor
      · simp [leave_session, hu, hs, howner, hp]
      · simp [leave_session, hu, hs, howner, hp, close_session,
          assocFind_assocSet_self]
    exact ⟨key.1, _, key.2, fun _ => rfl, fun b m hbm => absurd hbm (by simp)⟩
  · have key : (leave_session mgr user_id now).1 = true ∧
        assocFind session_id (leave_session mgr user_id now).2.sessions =
          some { s with
                 participants := a :: l,
                 last_activity := now,
                 owner_id := a } := by
      constructor
      · simp [leave_session, hu, hs, howner, hp]
      · simp [leave_session, hu, hs, howner, hp, assocFind_assocSet_self]
    refine ⟨key.1, _, key.2, fun h0 => absurd h0 (by simp), fun b m hbm => ?_⟩
    injection hbm with hb hm
    subst hb
    subst hm
    exact ⟨hactive, rfl, List.mem_cons_self a l, rfl⟩

/-- An active two-member session owned by alice, with bob also joined. -/
def sessionAB : Session :=
  { sid := "s1", name := "Session s1", owner_id := "alice", created_at := 0,
    last_activity := 0, status := "active", participants := ["alice", "bob"],
    applications := [], settings := defaultSettings, closed_at := none }

/-- A session manager holding that one session. -/
def smgrAB : SessionManager :=
  { sessions := [("s1", sessionAB)],
    user_sessions := [("alice", "s1"), ("bob", "s1")],
    session_participants := [("s1", ["alice", "bob"])],
    session_timeout := 3600 }

/-- Witness for C4: alice (owner) leaves her session with bob; the call
succeeds and, per the theorem, ownership passes to bob with the session
still active. -/
theorem C4_witness :
    sessionAB.owner_id = "alice" ∧ (leave_session smgrAB "alice" 5).1 = true :=
  ⟨rfl,
    (C4_owner_leave smgrAB "alice" "s1" sessionAB 5 (by decide) (by decide)
      rfl rfl).1⟩

/-- Claim C9: for an active session below its participant limit, a join
by a user who is already a member succeeds and leaves the participant
set (hence the participant count) unchanged, only touching the
last-activity timestamp. -/
theorem C9_join_idempotent (mgr : SessionManager) (session_id user_id : String)
    (s : Session) (now : Nat)
    (hs : assocFind session_id mgr.sessions = some s)
    (hactive : s.status = "active")
    (hcap : s.participants.length < s.settings.max_participants)
    (hmem : user_id ∈ s.participants) :
    (join_session mgr session_id user_id now).1 = true ∧
    assocFind session_id (join_session mgr session_id user_id now).2.sessions =
      some { s with last_activity := now } ∧
    ({ s with last_activity := now } : Session).participants = s.participants := by
  refine ⟨?_, ?_, rfl⟩
  · simp [join_session, hs, hactive, Nat.not_le.mpr hcap]
  · simp [join_session, hs, hactive, Nat.not_le.mpr hcap, insertIfAbsent, hmem,
      assocFind_assocSet_self]

/-- Witness for C9: bob, already a member, joins session s1 again. -/
theorem C9_witness :
    "bob" ∈ sessionAB.participants ∧ (join_session smgrAB "s1" "bob" 5).1 = true :=
  ⟨by decide,
    (C9_join_idempotent smgrAB "s1" "bob" sessionAB 5 (by decide) rfl
      (by decide) (by decide)).1⟩

/-- Claim C10: a user who is already a participant of session A and
then creates a new session B, or joins another session B, gets the
user-to-session reverse map re-pointed at B while session A's record
(in particular its participant set) is left untouched. -/
theorem C10_no_leave_on_create_or_join (mgr : SessionManager)
    (A B user_id : String) (sA sB : Session) (nameB : Option String) (now : Nat)
    (hA : assocFind A mgr.sessions = some sA)
    (_hmem : user_id ∈ sA.participants)
    (hne : B ≠ A) :
    (assocFind A (create_session mgr user_id B nameB now).1.sessions = some sA ∧
     assocFind user_id (create_session mgr user_id B nameB now).1.user_sessions =
       some B) ∧
    (assocFind B mgr.sessions = some sB → sB.status = "active" →
     sB.participants.length < sB.settings.max_participants →
      (join_session mgr B user_id now).1 = true ∧
      assocFind A (join_session mgr B user_id now).2.sessions = some sA ∧
      assocFind user_id (join_session mgr B user_id now).2.user_sessions = some B) := by
  constructor
  · constructor
    · rw [create_session]
      simpa [assocFind_assocSet_ne _ _ hne] using hA
    · simp [create_session, assocFind_assocSet_self]
  · intro hB hact hcap
    refine ⟨?_, ?_, ?_⟩
    · simp [join_session, hB, hact, Nat.not_le.mpr hcap]
    · rw [join_session]
      simp only [hB]
      simpa [hact, Nat.not_le.mpr hcap, assocFind_assocSet_ne _ _ hne] using hA
    · simp [join_session, hB, hact, Nat.not_le.mpr hcap, assocFind_assocSet_self]

/-- Witness for C10: bob, a member of s1, creates a new session s2 and
separately joins a second session s3; s1's record is unchanged. -/
theorem C10_witness :
    "bob" ∈ sessionAB.participants ∧
    assocFind "s1" (create_session smgrAB "bob" "s2" none 5).1.sessions =
      some sessionAB ∧
    assocFind "bob" (create_session smgrAB "bob" "s2" none 5).1.user_sessions =
      some "s2" :=
  ⟨by decide,
    (C10_no_leave_on_create_or_join smgrAB "s1" "s2" "bob" sessionAB sessionAB
      none 5 (by decide) (by decide) (by decide)).1⟩

/-! ### The expiry sweep (claim C5) -/

/-- Folding the close step over ids not containing `sid` leaves the
`sid` entry of the session table untouched. -/
theorem sweep_foldl_not_mem (now : Nat) (L : List String) (m : SessionManager)
    (sid : String) (h : sid ∉ L) :
    assocFind sid
      ((L.foldl (fun m2 t => (close_session m2 t now).2) m).sessions) =
      assocFind sid m.sessions := by
  induction L generalizing m with
  | nil => rfl
  | cons a L ih =>
      have hne : a ≠ sid := fun he => h (he ▸ List.mem_cons_self a L)
      have hstep : assocFind sid ((close_session m a now).2).sessions =
          assocFind sid m.sessions := by
        rcases hfa : assocFind a m.sessions with _ | s
        · simp [close_session, hfa]
        · simp [close_session, hfa, assocFind_assocSet_ne _ _ hne]
      rw [List.foldl_cons,
        ih ((close_session m a now).2) (fun hm => h (List.mem_cons_of_mem a hm)),
        hstep]

/-- Folding the close step over a duplicate-free id list containing
`sid` replaces the `sid` entry by its closed version. -/
theorem sweep_foldl_mem (now : Nat) (L : List String) (m : SessionManager)
    (sid : String) (s : Session) (hnd : L.Nodup) (hmem : sid ∈ L)
    (hfind : assocFind sid m.sessions = some s) :
    assocFind sid
      ((L.foldl (fun m2 t => (close_session m2 t now).2) m).sessions) =
      some { s with status := "closed", closed_at := some now } := by
  obtain ⟨L1, L2, rfl⟩ := List.append_of_mem hmem
  have h2 : sid ∉ L2 :=
    (List.nodup_cons.mp (List.Nodup.of_append_right hnd)).1
  have h1 : sid ∉ L1 := fun hin =>
    (List.disjoint_of_nodup_append hnd) hin (List.mem_cons_self sid L2)
  rw [List.foldl_append, List.foldl_cons]
  have hmid : assocFind sid
      ((L1.foldl (fun m2 t => (close_session m2 t now).2) m).sessions) = some s := by
    rw [sweep_foldl_not_mem now L1 m sid h1]
    exact hfind
  have hclose : ∀ M : SessionManager, assocFind sid M.sessions = some s →
      assocFind sid ((close_session M sid now).2).sessions =
        some { s with status := "closed", closed_at := some now } := by
    intro M hM
    simp [close_session, hM, assocFind_assocSet_self]
  rw [sweep_foldl_not_mem now L2 _ sid h2]
  exact hclose _ hmid

/-- A session whose last activity is long past, inside a manager with a
10-second timeout. -/
def sessionOld : Session :=
  { sid := "s9", name := "Session s9", owner_id := "carol", created_at := 0,
    last_activity := 0, status := "active", participants := ["carol"],
    applications := [], settings := defaultSettings, closed_at := none }

/-- Manager used to exercise the expiry sweep. -/
def smgrOld : SessionManager :=
  { sessions := [("s9", sessionOld)], user_sessions := [("carol", "s9")],
    session_participants := [("s9", ["carol"])], session_timeout := 10 }

/-- Claim C5 counterexample: the first sweep at time 11 closes the
expired session (stamping `closed_at = 11`), but a second sweep at time
12 processes the already-closed session again and re-stamps
`closed_at = 12` — repeated calls are not free of further effect on
sessions the sweep has already closed, because closed sessions are not
excluded from the expiry scan. -/
theorem C5_counterexample :
    (assocFind "s9" (cleanup_expired_sessions smgrOld 11).sessions).map
      Session.status = some "closed" ∧
    (assocFind "s9" (cleanup_expired_sessions smgrOld 11).sessions).map
      Session.closed_at = some (some 11) ∧
    (assocFind "s9"
      (cleanup_expired_sessions (cleanup_expired_sessions smgrOld 11) 12).sessions).map
      Session.closed_at = some (some 12) ∧
    cleanup_expired_sessions (cleanup_expired_sessions smgrOld 11) 12 ≠
      cleanup_expired_sessions smgrOld 11 := by
  decide

/-- Claim C5 (amended): one sweep call at time `now` maps each session
of the table to its closed version (status `"closed"`, `closed_at`
stamped `now`) exactly when its last-activity age strictly exceeds the
timeout — regardless of whether the session was still active — and
leaves every session updated within the timeout untouched.  Because
already-closed sessions are scanned again, repetition is only harmless
up to the re-stamp exhibited by the counterexample. -/
theorem C5_sweep_characterization (mgr : SessionManager) (now : Nat)
    (sid : String) (s : Session)
    (hnd : (mgr.sessions.map Prod.fst).Nodup)
    (hfind : assocFind sid mgr.sessions = some s) :
    assocFind sid (cleanup_expired_sessions mgr now).sessions =
      some (if now - s.last_activity > mgr.session_timeout
        then { s with status := "closed", closed_at := some now } else s) := by
  rw [cleanup_expired_sessions]
  have hndL : ((mgr.sessions.filter
      (fun kv => now - kv.2.last_activity > mgr.session_timeout)).map
      (fun kv => kv.1)).Nodup :=
    List.Nodup.sublist
      (List.Sublist.map (fun kv => kv.1) (List.filter_sublist mgr.sessions)) hnd
  by_cases hp : now - s.last_activity > mgr.session_timeout
  · rw [if_pos hp]
    have hin : sid ∈ (mgr.sessions.filter
        (fun kv => now - kv.2.last_activity > mgr.session_timeout)).map
        (fun kv => kv.1) := by
      refine List.mem_map_of_mem (fun kv => kv.1)
        (List.mem_filter.mpr ⟨assocFind_mem hfind, ?_⟩)
      simpa using hp
    exact sweep_foldl_mem now _ mgr sid s hndL hin hfind
  · rw [if_neg hp]
    have hnotin : sid ∉ (mgr.sessions.filter
        (fun kv => now - kv.2.last_activity > mgr.session_timeout)).map
        (fun kv => kv.1) := by
      intro hin
      obtain ⟨kv, hkv, hfst⟩ := List.mem_map.mp hin
      obtain ⟨hkvmem, hkvp⟩ := List.mem_filter.mp hkv
      have : assocFind sid mgr.sessions = some kv.2 := by
        subst hfst
        exact mem_assocFind hnd hkvmem
      rw [hfind] at this
      obtain rfl : s = kv.2 := by injection this
      exact hp (by simpa using hkvp)
    rw [sweep_foldl_not_mem now _ mgr sid hnotin]
    exact hfind

/-- Witness for C5 at the concrete expired session: the sweep at time
11 closes it. -/
theorem C5_witness :
    (smgrOld.sessions.map Prod.fst).Nodup ∧
    assocFind "s9" (cleanup_expired_sessions smgrOld 11).sessions =
      some (if 11 - sessionOld.last_activity > smgrOld.session_timeout
        then { sessionOld with status := "closed", closed_at := some 11 }
        else sessionOld) :=
  ⟨by decide,
    C5_sweep_characterization smgrOld 11 "s9" sessionOld (by decide) (by decide)⟩

/-! ### Claims about the stream fan-out and input forwarding -/

/-- A stream with two subscribers, one of which fails every send. -/
def liveTwo : LiveStreamer :=
  { clients := [{ cid := "a", sendFails := true, received := [] },
                { cid := "b", sendFails := false, received := [] }],
    frame_rate := 30, quality := 80 }

/-- Claim C6 counterexample: publishing three payloads to a room with
two subscribers of which `"a"` always fails delivers all three payloads
in order to `"b"`, but `"a"` is still subscribed to the room after the
whole broadcast — the publish path never removes a failing subscriber
(removal happens only when its connection itself closes). -/
theorem C6_counterexample :
    (streamFrames liveTwo ["f1", "f2", "f3"]).clients.map LiveClient.cid
      = ["a", "b"] ∧
    ({ cid := "b", sendFails := false, received := ["f1", "f2", "f3"] } : LiveClient)
      ∈ (streamFrames liveTwo ["f1", "f2", "f3"]).clients ∧
    ({ cid := "a", sendFails := true, received := [] } : LiveClient)
      ∈ (streamFrames liveTwo ["f1", "f2", "f3"]).clients := by
  decide

/-- Claim C6 (amended): publishing any sequence of payloads appends the
whole sequence, in publish order, to the log of every subscriber whose
sends succeed, leaves every always-failing subscriber untouched (its
failures are isolated and swallowed), and never changes the subscriber
list — in particular a failing subscriber is not removed by publishing. -/
theorem C6_ordered_delivery_no_removal (s : LiveStreamer) (payloads : List String) :
    streamFrames s payloads =
      { s with clients := s.clients.map (fun c =>
          if c.sendFails then c
          else { c with received := c.received ++ payloads }) } := by
  induction payloads generalizing s with
  | nil =>
      have hid : ∀ c : LiveClient,
          (if c.sendFails then c
           else { c with received := c.received ++ ([] : List String) }) = c := by
        intro c
        cases c
        simp
      simp [streamFrames, hid]
  | cons p ps ih =>
      have hfun : ∀ c : LiveClient,
          (if (sendFrame p c).sendFails then sendFrame p c
           else { sendFrame p c with
                  received := (sendFrame p c).received ++ ps }) =
          (if c.sendFails then c
           else { c with received := c.received ++ p :: ps }) := by
        intro c
        cases c with
        | mk cid sf rc => cases sf <;> simp [sendFrame]
      have hstep : streamFrames s (p :: ps) = streamFrames (streamFrame s p) ps := rfl
      rw [hstep, ih]
      simp only [streamFrame, List.map_map]
      congr 1
      exact List.map_congr_left (fun c _ => hfun c)

/-- Routing state with two clients in room `appA`, `"c"` the sender. -/
def wsTwo : WSState :=
  { connected_clients := ["c", "d"],
    app_sessions := [("appA", ["c", "d"])],
    client_apps := [("c", "appA")] }

/-- A click event used in the input-forwarding claims. -/
def evClick : MouseEvent := { etype := "click", x := 10, y := 20, button := 1 }

/-- Window lookup reporting one window for `appA`. -/
def windowsOfSample : String → List String :=
  fun a => if a = "appA" then ["w1"] else []

/-- Claim C7 counterexample: forwarding a mouse event from client `"c"`
in room `appA` injects it into the application's window AND relays it
to the other subscriber `"d"` of the room — input is not unicast to the
backing process only. -/
theorem C7_counterexample :
    handle_mouse_event wsTwo "c" evClick windowsOfSample =
      { injected := some ("w1", evClick), broadcastTo := ["d"] } ∧
    (["d"] : List String) ≠ [] := by
  decide

/-- Claim C7 (amended): an input event from a channel subscribed to no
room is dropped (no injection, no relay); from a channel in room
`room` it is injected into the room's first window when one exists and,
in addition, relayed to exactly the other subscribers of that room —
every room subscriber except the sender receives a copy. -/
theorem C7_input_routing (ws : WSState) (client_id room : String) (ev : MouseEvent)
    (windowsOf : String → List String)
    (hroom : assocFind client_id ws.client_apps = some room) :
    (handle_mouse_event ws client_id ev windowsOf).injected =
      ((windowsOf room).head?.map (fun w => (w, ev))) ∧
    (∀ c, c ∈ (handle_mouse_event ws client_id ev windowsOf).broadcastTo ↔
      (c ∈ (assocFind room ws.app_sessions).getD [] ∧ c ≠ client_id)) ∧
    client_id ∉ (handle_mouse_event ws client_id ev windowsOf).broadcastTo ∧
    (∀ (ws2 : WSState) (c2 : String),
      assocFind c2 ws2.client_apps = none →
      handle_mouse_event ws2 c2 ev windowsOf =
        { injected := none, broadcastTo := [] }) := by
  refine ⟨?_, ?_, ?_, ?_⟩
  · simp [handle_mouse_event, hroom]
  · intro c
    simp [handle_mouse_event, hroom, List.mem_filter]
  · simp [handle_mouse_event, hroom, List.mem_filter]
  · intro ws2 c2 h2
    simp [handle_mouse_event, h2]

/-- Witness for C7: client `"c"` in room `appA` gets its click injected
into window `w1`. -/
theorem C7_witness :
    assocFind "c" wsTwo.client_apps = some "appA" ∧
    (handle_mouse_event wsTwo "c" evClick windowsOfSample).injected =
      some ("w1", evClick) :=
  ⟨by decide,
    (C7_input_routing wsTwo "c" "appA" evClick windowsOfSample (by decide)).1⟩

end AppShare
